import Mathlib

/-!
Shallow embedding of the registration / stitching core of
`src/main_DiffeoMappingNet.py`, together with theorems settling the
specification claims about it.  Every definition is translated from the
Python source; definitions whose name carries the suffix `Spec` are instead
transcriptions of a sentence of the specification, kept separate so that the
source-derived definition can be compared against them.
-/

namespace DiffeoMappingNet

/-! ## Images and the flip / rotation candidates (`flip_rot`,
`predict_flipping_rotation`, source lines 102-157)

A torch tensor of shape `[batch, C, H, W]` with square spatial extent is
modelled as a function `Fin b → Fin c → Fin n → Fin n → ℤ` (pixel values are
exact; flips and 90-degree rotations move pixels, they never interpolate).
-/

def Img (b c n : ℕ) : Type := Fin b → Fin c → Fin n → Fin n → ℤ

/-- Model of `torch.flip(image, dims=(2,))`: reverse the H index (source line 104). -/
def torchFlipDim2 {b c n : ℕ} (image : Img b c n) : Img b c n :=
  fun bi ci i j => image bi ci i.rev j

/-- Model of `torch.rot90(image, k=1, dims=(2, 3))`: one quarter turn taking the H
axis towards the W axis, `out[i][j] = in[j][n-1-i]`. -/
def torchRot90 {b c n : ℕ} (image : Img b c n) : Img b c n :=
  fun bi ci i j => image bi ci j i.rev

/-- Embedding of `flip_rot(image, fliplr, rot_angle)` (source lines 102-115): optionally
flip along dim 2, then rotate by `rot_angle` in {0, 90, 180, 270} degrees
(`torch.rot90` with `k` = 1, 2, 3). -/
def flip_rot {b c n : ℕ} (image : Img b c n) (fliplr : Bool) (rot_angle : ℕ) :
    Img b c n :=
  let flipped := if fliplr then torchFlipDim2 image else image
  if rot_angle = 90 then torchRot90 flipped
  else if rot_angle = 180 then torchRot90 (torchRot90 flipped)
  else if rot_angle = 270 then torchRot90 (torchRot90 (torchRot90 flipped))
  else flipped

/-- The 8 `(fliplr, rot_angle_forward, rot_angle_reverse)` candidates
enumerated by `predict_flipping_rotation` (source lines 134-142): the flip
flag is shared between forward and reverse, and the rotation lists
`[0, 90, 180, 270]` and `[0, 270, 180, 90]` are zipped. -/
def flipRotCandidates : List (Bool × ℕ × ℕ) :=
  [(false, 0, 0), (false, 90, 270), (false, 180, 180), (false, 270, 90),
   (true, 0, 0), (true, 90, 270), (true, 180, 180), (true, 270, 90)]

/-- A concrete 1×1×2×2 moving image with pairwise distinct pixels 1,2,3,4. -/
def testImg : Img 1 1 2 :=
  fun _ _ i j =>
    if i = 0 then (if j = 0 then 1 else 2) else (if j = 0 then 3 else 4)

/-- C1.  The claim states that for every one of the 8 candidates the reverse
transform undoes the forward transform.  This fails on the code: the
candidate `(fliplr := true, forward 90, reverse 270)` is enumerated, yet on
the 2×2 test image the reverse applied to the forward output is the
180-degree rotation of the original, not the original: pixel (0,0) of the
round trip holds 4 while the original holds 1.  (Since both forward and
reverse flip first and rotate second, the flip conjugates the rotation, so
an exact inverse would need the same rotation angle, not the complementary
one, whenever the flip flag is set.) -/
theorem c1_flip_rot_reverse_not_inverse :
    (true, 90, 270) ∈ flipRotCandidates ∧
    flip_rot (flip_rot testImg true 90) true 270 0 0 0 0 = 4 ∧
    testImg 0 0 0 0 = 1 ∧
    flip_rot (flip_rot testImg true 90) true 270 ≠ testImg := by
  refine ⟨by decide, by decide, by decide, fun h => ?_⟩
  have h00 := congrFun (congrFun (congrFun (congrFun h 0) 0) 0) 0
  revert h00
  decide

/-! ## Patch stitching (`stitch_patches`, source lines 590-663)

A predicted-label patch is a `imsize × imsize` (= 32 × 32) grayscale image
tagged by the signed offsets `(h, w)` parsed from its filename.  Pixel values
are `ℕ` (numpy `uint8`).  The patch content is modelled as a total function
`ℤ → ℤ → ℕ`; only indices 0..31 are ever read by the stitcher.  The canvas
is a total function `ℤ → ℤ → ℕ`, zero outside the written regions, exactly
like the `np.zeros` initial canvas. -/

/-- Patch size `imsize = 32` (source line 595, hardcoded). -/
def imsize : ℤ := 32

structure Patch where
  h : ℤ
  w : ℤ
  content : ℤ → ℤ → ℕ

/-- The placement of one patch on the canvas: the canvas rows
`[startRow, endRow)` and columns `[startCol, endCol)` receive the patch
sub-region whose top-left patch coordinate is `(cropRow0, cropCol0)`. -/
structure Placement where
  startRow : ℤ
  endRow : ℤ
  startCol : ℤ
  endCol : ℤ
  cropRow0 : ℤ
  cropCol0 : ℤ
  deriving DecidableEq

/-- Placement arithmetic exactly as in the source (lines 629-641):
`offset = min(0, x)`, `start = max(0, x)`,
`end = min(start + imsize + offset, canvas_extent)`, and the crop of the
patch starts at `-offset`. -/
def placementCode (canvasH canvasW hOff wOff : ℤ) : Placement :=
  let offset_h := min 0 hOff
  let offset_w := min 0 wOff
  let start_h := max 0 hOff
  let start_w := max 0 wOff
  { startRow := start_h
    endRow := min (start_h + imsize + offset_h) canvasH
    startCol := start_w
    endCol := min (start_w + imsize + offset_w) canvasW
    cropRow0 := -offset_h
    cropCol0 := -offset_w }

/-- Transcription of the specification sentence for claim C2:
`start_row = max(0, h)`, `end_row = min(start_row + patch_size - min(0,h),
canvas_height)`, likewise for columns, with the crop of the patch using the
same negative-offset correction (crop starts at `-min(0,x)`).  Note the
minus sign in front of `min(0,h)`, where the source has a plus. -/
def placementSpec (canvasH canvasW hOff wOff : ℤ) : Placement :=
  { startRow := max 0 hOff
    endRow := min (max 0 hOff + imsize - min 0 hOff) canvasH
    startCol := max 0 wOff
    endCol := min (max 0 wOff + imsize - min 0 wOff) canvasW
    cropRow0 := -(min 0 hOff)
    cropCol0 := -(min 0 wOff) }

/-- The amended C2 formula: identical to the specification sentence except
that `end_row = min(start_row + patch_size + min(0,h), canvas_height)`
(plus, i.e. the patch extent is shortened by the clipped amount), likewise
for columns. -/
def placementSpecAmended (canvasH canvasW hOff wOff : ℤ) : Placement :=
  { startRow := max 0 hOff
    endRow := min (max 0 hOff + imsize + min 0 hOff) canvasH
    startCol := max 0 wOff
    endCol := min (max 0 wOff + imsize + min 0 wOff) canvasW
    cropRow0 := -(min 0 hOff)
    cropCol0 := -(min 0 wOff) }

/-- Is canvas pixel `(i, j)` inside the region written for this patch? -/
def coveredBy (canvasH canvasW : ℤ) (p : Patch) (i j : ℤ) : Bool :=
  let pl := placementCode canvasH canvasW p.h p.w
  pl.startRow ≤ i && i < pl.endRow && pl.startCol ≤ j && j < pl.endCol

/-- The value the patch writes at canvas pixel `(i, j)`:
`label_patch[-offset_h + (i - start_h)][-offset_w + (j - start_w)]`
(source line 641 combined with the slice assignment of line 648). -/
def patchWrite (canvasH canvasW : ℤ) (p : Patch) (i j : ℤ) : ℕ :=
  let pl := placementCode canvasH canvasW p.h p.w
  p.content (pl.cropRow0 + (i - pl.startRow)) (pl.cropCol0 + (j - pl.startCol))

/-- One iteration of the stitching loop (source lines 626-648): the cropped
sub-region of the patch overwrites the canvas region it covers.  The source
also computes `updated_patch = np.maximum(old_patch, new_patch)` (line 646)
but the assignment on line 648 uses `new_patch`, so the maximum is dead. -/
def applyPatch (canvasH canvasW : ℤ) (canvas : ℤ → ℤ → ℕ) (p : Patch) :
    ℤ → ℤ → ℕ :=
  fun i j =>
    if coveredBy canvasH canvasW p i j then patchWrite canvasH canvasW p i j
    else canvas i j

/-- The what-if variant in which the discarded `np.maximum` combine of
source line 646 were actually assigned. -/
def applyPatchMaxVariant (canvasH canvasW : ℤ) (canvas : ℤ → ℤ → ℕ)
    (p : Patch) : ℤ → ℤ → ℕ :=
  fun i j =>
    if coveredBy canvasH canvasW p i j then
      max (canvas i j) (patchWrite canvasH canvasW p i j)
    else canvas i j

/-- Stitch the patches of one base identifier, in the order of the sorted
filename list (source lines 621-648), onto an all-zero canvas. -/
def stitchCanvas (canvasH canvasW : ℤ) (patches : List Patch) : ℤ → ℤ → ℕ :=
  patches.foldl (applyPatch canvasH canvasW) (fun _ _ => 0)

/-- Stitching under the what-if max-combine policy. -/
def stitchCanvasMaxVariant (canvasH canvasW : ℤ) (patches : List Patch) :
    ℤ → ℤ → ℕ :=
  patches.foldl (applyPatchMaxVariant canvasH canvasW) (fun _ _ => 0)

/-- The last patch in list order whose written region covers `(i, j)`. -/
def lastCovering (canvasH canvasW : ℤ) (patches : List Patch) (i j : ℤ) :
    Option Patch :=
  patches.foldl
    (fun acc p => if coveredBy canvasH canvasW p i j then some p else acc)
    none

lemma lastCovering_foldl_acc (canvasH canvasW : ℤ) (i j : ℤ) :
    ∀ (patches : List Patch) (acc : Option Patch),
      patches.foldl
        (fun a p => if coveredBy canvasH canvasW p i j then some p else a)
        acc =
      match lastCovering canvasH canvasW patches i j with
      | some q => some q
      | none => acc := by
  intro patches
  induction patches with
  | nil => intro acc; rfl
  | cons p ps ih =>
    intro acc
    show List.foldl _ (if coveredBy canvasH canvasW p i j then some p else acc)
        ps = _
    rw [ih]
    have hlc : lastCovering canvasH canvasW (p :: ps) i j =
        match lastCovering canvasH canvasW ps i j with
        | some q => some q
        | none => if coveredBy canvasH canvasW p i j then some p else none := by
      show List.foldl _ (if coveredBy canvasH canvasW p i j then some p
          else none) ps = _
      rw [ih]
    rw [hlc]
    cases lastCovering canvasH canvasW ps i j with
    | some q => rfl
    | none => cases coveredBy canvasH canvasW p i j <;> rfl

lemma stitch_foldl_char (canvasH canvasW : ℤ) (i j : ℤ) :
    ∀ (patches : List Patch) (canvas : ℤ → ℤ → ℕ),
      patches.foldl (applyPatch canvasH canvasW) canvas i j =
      match lastCovering canvasH canvasW patches i j with
      | some p => patchWrite canvasH canvasW p i j
      | none => canvas i j := by
  intro patches
  induction patches with
  | nil => intro canvas; rfl
  | cons p ps ih =>
    intro canvas
    show List.foldl _ (applyPatch canvasH canvasW canvas p) ps i j = _
    rw [ih]
    have hlc : lastCovering canvasH canvasW (p :: ps) i j =
        match lastCovering canvasH canvasW ps i j with
        | some q => some q
        | none => if coveredBy canvasH canvasW p i j then some p else none := by
      show List.foldl _ (if coveredBy canvasH canvasW p i j then some p
          else none) ps = _
      rw [lastCovering_foldl_acc]
    rw [hlc]
    cases hps : lastCovering canvasH canvasW ps i j with
    | some q => rfl
    | none =>
      show applyPatch canvasH canvasW canvas p i j = _
      unfold applyPatch
      cases hc : coveredBy canvasH canvasW p i j <;> simp [hc]

/-- The all-value-2 patch at offsets `H0_W0` and the all-value-1 patch at
offsets `H0_W16`: on a 48×48 canvas their written regions overlap in
columns 16..31, and last-write-wins and max-combine disagree there. -/
def patchA : Patch := { h := 0, w := 0, content := fun _ _ => 2 }

def patchB : Patch := { h := 0, w := 16, content := fun _ _ => 1 }

/-- C3.  Last write wins: after stitching, every canvas pixel covered by at
least one patch holds exactly the value written there by the last covering
patch in list (sorted-filename) order — the `np.maximum` combine computed
inside the loop is discarded, as the second conjunct shows on a concrete
overlap: at pixel (5, 20) of a 48×48 canvas, the later all-1 patch yields 1
under the code, whereas assigning the computed max would yield 2. -/
theorem c3_last_write_wins :
    (∀ (canvasH canvasW : ℤ) (patches : List Patch) (i j : ℤ) (p : Patch),
      lastCovering canvasH canvasW patches i j = some p →
      stitchCanvas canvasH canvasW patches i j =
        patchWrite canvasH canvasW p i j) ∧
    stitchCanvas 48 48 [patchA, patchB] 5 20 = 1 ∧
    stitchCanvasMaxVariant 48 48 [patchA, patchB] 5 20 = 2 := by
  refine ⟨fun canvasH canvasW patches i j p hp => ?_, by decide, by decide⟩
  unfold stitchCanvas
  rw [stitch_foldl_char, hp]

/-- Witness for C3: at pixel (5, 20) the last covering patch among
`[patchA, patchB]` on the 48×48 canvas is `patchB`, and the theorem applied
there evaluates the stitched canvas to `patchB`'s written value. -/
theorem c3_last_write_wins_witness :
    lastCovering 48 48 [patchA, patchB] 5 20 = some patchB ∧
    stitchCanvas 48 48 [patchA, patchB] 5 20 = patchWrite 48 48 patchB 5 20 :=
  ⟨rfl, c3_last_write_wins.1 48 48 [patchA, patchB] 5 20 patchB rfl⟩

/-- C2 counterexample.  The specification formula
`end_row = min(start_row + patch_size - min(0,h), canvas_height)` disagrees
with the source for a negative offset: for `h = -5` on the default 1000×1000
canvas the code yields `end_row = 27` while the formula yields 37. -/
theorem c2_spec_formula_counterexample :
    (placementCode 1000 1000 (-5) 0).endRow = 27 ∧
    (placementSpec 1000 1000 (-5) 0).endRow = 37 ∧
    placementCode 1000 1000 (-5) 0 ≠ placementSpec 1000 1000 (-5) 0 := by
  refine ⟨by decide, by decide, by decide⟩

/-- C2 amended.  With the sign fixed —
`end_row = min(start_row + patch_size + min(0,h), canvas_height)` and
likewise for columns — the formula (including the crop offsets) is exactly
what the code computes for every offset pair; and for non-negative offsets
the original specification formula already agrees with the code. -/
theorem c2_placement_amended :
    (∀ canvasH canvasW hOff wOff : ℤ,
      placementCode canvasH canvasW hOff wOff =
        placementSpecAmended canvasH canvasW hOff wOff) ∧
    (∀ canvasH canvasW hOff wOff : ℤ, 0 ≤ hOff → 0 ≤ wOff →
      placementCode canvasH canvasW hOff wOff =
        placementSpec canvasH canvasW hOff wOff) := by
  constructor
  · intro canvasH canvasW hOff wOff
    rfl
  · intro canvasH canvasW hOff wOff hh hw
    simp only [placementCode, placementSpec, Placement.mk.injEq]
    have h1 : min 0 hOff = 0 := min_eq_left hh
    have h2 : min 0 wOff = 0 := min_eq_left hw
    rw [h1, h2]
    norm_num

/-- Witness for C2 amended: at offsets `(3, 4)` (non-negative) on the
default canvas the code placement matches the original spec formula. -/
theorem c2_placement_amended_witness :
    placementCode 1000 1000 3 4 = placementSpec 1000 1000 3 4 :=
  c2_placement_amended.2 1000 1000 3 4 (by decide) (by decide)

/-- C7.  Stitching the single patch `H-5_W0` (patch size 32) onto the
default large canvas: canvas pixel `(i, j)` receives patch pixel
`(i + 5, j)` exactly for `0 ≤ i < 27` and `0 ≤ j < 32`, i.e. patch rows
5..31 land on canvas rows 0..26 and columns 0..31, with the top 5 patch rows
discarded and every other canvas pixel left at zero. -/
theorem c7_negative_offset (content : ℤ → ℤ → ℕ) (i j : ℤ) :
    stitchCanvas 1000 1000 [{ h := -5, w := 0, content := content }] i j =
      if 0 ≤ i ∧ i < 27 ∧ 0 ≤ j ∧ j < 32 then content (i + 5) j else 0 := by
  show applyPatch 1000 1000 (fun _ _ => 0)
      { h := -5, w := 0, content := content } i j = _
  unfold applyPatch coveredBy patchWrite placementCode imsize
  norm_num
  split
  · rename_i hcov
    obtain ⟨⟨⟨h1, h2⟩, h3⟩, h4⟩ := hcov
    rw [if_pos ⟨h1, h2, h3, h4⟩]
    ring_nf
  · rename_i hcov
    rw [if_neg]
    intro ⟨h1, h2, h3, h4⟩
    exact hcov ⟨⟨⟨h1, h2⟩, h3⟩, h4⟩

/-! ## The per-batch registration computation of `train`
(source lines 252-302 for the training phase, 383-431 for validation)

Float tensors of shape `[b, c, n, n]` are modelled over `ℚ`.  The warp
predictor and the spatial-transformer warper are external collaborators
(`model.unet` / `registration.spatial_transformer`, not part of this
repository's two source files) and are therefore taken as opaque function
arguments; channel concatenation, channel slicing and the MSE loss are
concrete. -/

def Ten (b c n : ℕ) : Type := Fin b → Fin c → Fin n → Fin n → ℚ

/-- Embedding of `torch.cat([x, y], dim=1)`. -/
def catChannels {b c1 c2 n : ℕ} (x : Ten b c1 n) (y : Ten b c2 n) :
    Ten b (c1 + c2) n :=
  fun bi ci i j =>
    if h : (ci : ℕ) < c1 then x bi ⟨ci, h⟩ i j
    else y bi ⟨(ci : ℕ) - c1, by have := ci.isLt; omega⟩ i j

/-- Slice `t[:, :2, ...]` of a 4-channel tensor: channels 0 and 1. -/
def channels01 {b n : ℕ} (t : Ten b 4 n) : Ten b 2 n :=
  fun bi ci i j => t bi ⟨(ci : ℕ), by have := ci.isLt; omega⟩ i j

/-- Slice `t[:, 2:, ...]` of a 4-channel tensor: channels 2 and 3. -/
def channels23 {b n : ℕ} (t : Ten b 4 n) : Ten b 2 n :=
  fun bi ci i j => t bi ⟨(ci : ℕ) + 2, by have := ci.isLt; omega⟩ i j

/-- Embedding of `torch.nn.MSELoss()`: mean over all entries of the squared difference. -/
def mseLoss {b c n : ℕ} (x y : Ten b c n) : ℚ :=
  (∑ bi : Fin b, ∑ ci : Fin c, ∑ i : Fin n, ∑ j : Fin n,
    (x bi ci i j - y bi ci i j) ^ 2) / (b * c * n * n)

/-- Threshold `(t > 0.5).float()` elementwise. -/
def thresholdTen {b c n : ℕ} (t : Ten b c n) : Ten b c n :=
  fun bi ci i j => if 1 / 2 < t bi ci i j then 1 else 0

structure BatchResult (b n : ℕ) where
  imagesU2A : Ten b 3 n
  imagesU2A2U : Ten b 3 n
  labelsA2U : Ten b 1 n
  lossForward : ℚ
  lossCyclic : ℚ
  loss : ℚ

/-- One training-phase batch of `train` after label normalization (source
lines 252-302): predict the 4-channel field from
`torch.cat([annotated_images, unannotated_images], dim=1)`, split it into
forward (channels 0-1) and reverse (channels 2-3) fields, warp, threshold
the warped label when the batch is binary, and form
`loss = mse(annotated, U2A) + mse(unannotated, U2A2U)`. -/
def trainBatchStep {b n : ℕ} (warpPredictor : Ten b 6 n → Ten b 4 n)
    (warper : ∀ c : ℕ, Ten b c n → Ten b 2 n → Ten b c n)
    (annotatedImages unannotatedImages : Ten b 3 n)
    (annotatedLabels unannotatedLabels : Ten b 1 n)
    (labelIsBinary : Bool) : BatchResult b n :=
  let warpPredicted := warpPredictor (catChannels annotatedImages unannotatedImages)
  let warpFieldForward := channels01 warpPredicted
  let warpFieldReverse := channels23 warpPredicted
  let imagesU2A := warper 3 unannotatedImages warpFieldForward
  let imagesU2A2U := warper 3 imagesU2A warpFieldReverse
  let labelsA2U := warper 1 annotatedLabels warpFieldReverse
  let labelsA2Uout := if labelIsBinary then thresholdTen labelsA2U else labelsA2U
  let lossForward := mseLoss annotatedImages imagesU2A
  let lossCyclic := mseLoss unannotatedImages imagesU2A2U
  { imagesU2A := imagesU2A
    imagesU2A2U := imagesU2A2U
    labelsA2U := labelsA2Uout
    lossForward := lossForward
    lossCyclic := lossCyclic
    loss := lossForward + lossCyclic }

/-- One validation-phase batch of `train` (source lines 383-431): the same
computation, duplicated in the source; embedded separately so each phase is
covered by its own definition. -/
def valBatchStep {b n : ℕ} (warpPredictor : Ten b 6 n → Ten b 4 n)
    (warper : ∀ c : ℕ, Ten b c n → Ten b 2 n → Ten b c n)
    (annotatedImages unannotatedImages : Ten b 3 n)
    (annotatedLabels unannotatedLabels : Ten b 1 n)
    (labelIsBinary : Bool) : BatchResult b n :=
  let warpPredicted := warpPredictor (catChannels annotatedImages unannotatedImages)
  let warpFieldForward := channels01 warpPredicted
  let warpFieldReverse := channels23 warpPredicted
  let imagesU2A := warper 3 unannotatedImages warpFieldForward
  let imagesU2A2U := warper 3 imagesU2A warpFieldReverse
  let labelsA2U := warper 1 annotatedLabels warpFieldReverse
  let labelsA2Uout := if labelIsBinary then thresholdTen labelsA2U else labelsA2U
  let lossForward := mseLoss annotatedImages imagesU2A
  let lossCyclic := mseLoss unannotatedImages imagesU2A2U
  { imagesU2A := imagesU2A
    imagesU2A2U := imagesU2A2U
    labelsA2U := labelsA2Uout
    lossForward := lossForward
    lossCyclic := lossCyclic
    loss := lossForward + lossCyclic }

/-- C4.  In every training and validation batch, the warp predictor is fed
`cat([annotated, unannotated])`, its channels 0-1 are the forward field and
2-3 the reverse field, and the loss is exactly
`mse(annotated, warp(unannotated, fwd)) +
mse(unannotated, warp(warp(unannotated, fwd), rev))`; moreover the loss is
the same whatever the labels and the label-binary flag are, so no
ground-truth correspondence or label term contributes to it. -/
theorem c4_loss_structure {b n : ℕ} (warpPredictor : Ten b 6 n → Ten b 4 n)
    (warper : ∀ c : ℕ, Ten b c n → Ten b 2 n → Ten b c n)
    (annotatedImages unannotatedImages : Ten b 3 n)
    (annotatedLabels unannotatedLabels annotatedLabels2 unannotatedLabels2 :
      Ten b 1 n)
    (labelIsBinary labelIsBinary2 : Bool) :
    (trainBatchStep warpPredictor warper annotatedImages unannotatedImages
        annotatedLabels unannotatedLabels labelIsBinary).loss =
      mseLoss annotatedImages
        (warper 3 unannotatedImages
          (channels01 (warpPredictor
            (catChannels annotatedImages unannotatedImages)))) +
      mseLoss unannotatedImages
        (warper 3
          (warper 3 unannotatedImages
            (channels01 (warpPredictor
              (catChannels annotatedImages unannotatedImages))))
          (channels23 (warpPredictor
            (catChannels annotatedImages unannotatedImages)))) ∧
    (trainBatchStep warpPredictor warper annotatedImages unannotatedImages
        annotatedLabels2 unannotatedLabels2 labelIsBinary2).loss =
      (trainBatchStep warpPredictor warper annotatedImages unannotatedImages
        annotatedLabels unannotatedLabels labelIsBinary).loss ∧
    (valBatchStep warpPredictor warper annotatedImages unannotatedImages
        annotatedLabels unannotatedLabels labelIsBinary).loss =
      (trainBatchStep warpPredictor warper annotatedImages unannotatedImages
        annotatedLabels unannotatedLabels labelIsBinary).loss :=
  ⟨rfl, rfl, rfl⟩

/-! ## Statement-level control flow of the three phases (claim C5)

The per-batch bodies of the training phase (source lines 203-310), the
validation phase (lines 341-435) and the `test` function (lines 504-562)
are abstracted to the sequence of their unconditional effectful statements
(the conditional plotting branch is omitted). -/

inductive PhaseStep where
  | thresholdInputLabels
  | predictWarpField
  | applyWarpToImages
  | applyWarpToLabel
  | debuggerBreakpoint
  | thresholdWarpedLabel
  | computeMetric
  | computeLoss
  | backpropagate
  deriving DecidableEq, BEq

/-- Training-phase batch body: label normalization and threshold (lines
228-242), field prediction (252-254), warp application to images (257-258)
and to the label (259), `import pdb; pdb.set_trace()` (263), threshold of
the warped label (265-266), metric accumulation (269-281), loss (300-302),
backward and optimizer step (308-310). -/
def trainPhaseBatchSteps : List PhaseStep :=
  [.thresholdInputLabels, .predictWarpField, .applyWarpToImages,
   .applyWarpToLabel, .debuggerBreakpoint, .thresholdWarpedLabel,
   .computeMetric, .computeLoss, .backpropagate]

/-- Validation-phase batch body (lines 343-435): same sequence with no
debugger breakpoint and no backpropagation. -/
def valPhaseBatchSteps : List PhaseStep :=
  [.thresholdInputLabels, .predictWarpField, .applyWarpToImages,
   .applyWarpToLabel, .thresholdWarpedLabel, .computeMetric, .computeLoss]

/-- The `test` batch body (lines 504-562): input labels are thresholded before
prediction, no debugger breakpoint, no post-warp threshold, no
backpropagation. -/
def testPhaseBatchSteps : List PhaseStep :=
  [.thresholdInputLabels, .predictWarpField, .applyWarpToImages,
   .applyWarpToLabel, .computeMetric, .computeLoss]

/-- C5.  Every training-phase batch iteration contains exactly one
unconditional debugger breakpoint, placed after the warp applications and
before the warped-label threshold, the metric computation and the loss
computation; the validation and test phase bodies contain none, so only
training batches block on external debugger interaction. -/
theorem c5_debugger_breakpoint :
    trainPhaseBatchSteps.count .debuggerBreakpoint = 1 ∧
    trainPhaseBatchSteps.indexOf .applyWarpToImages <
      trainPhaseBatchSteps.indexOf .debuggerBreakpoint ∧
    trainPhaseBatchSteps.indexOf .applyWarpToLabel <
      trainPhaseBatchSteps.indexOf .debuggerBreakpoint ∧
    trainPhaseBatchSteps.indexOf .debuggerBreakpoint <
      trainPhaseBatchSteps.indexOf .thresholdWarpedLabel ∧
    trainPhaseBatchSteps.indexOf .debuggerBreakpoint <
      trainPhaseBatchSteps.indexOf .computeMetric ∧
    trainPhaseBatchSteps.indexOf .debuggerBreakpoint <
      trainPhaseBatchSteps.indexOf .computeLoss ∧
    valPhaseBatchSteps.count .debuggerBreakpoint = 0 ∧
    testPhaseBatchSteps.count .debuggerBreakpoint = 0 := by
  decide

/-! ## Python error model shared by claims C6, C8 and C10 -/

inductive PyErr where
  | assertionError
  | nameError (name : String)
  deriving DecidableEq

/-! ## Name resolution at the post-stitching call of `infer` (claim C6)

At source line 814 `infer` evaluates
`eval_stitched(stitched_folder, test_label_folder, organ=config.organ,
dataset_name=dataset_name)`.  Python resolves the expression `dataset_name`
against the function's local names, the module's global names and the
builtins.  The three name sets are transcribed from the source file. -/

/-- All names bound in the body of `infer` (parameters and every name
assigned anywhere in the function, source lines 706-861). -/
def inferLocalNames : List String :=
  ["config", "wandb_run", "device", "_", "test_set", "pred_label_folder",
   "warp_predictor", "warper", "load_results", "test_images", "test_labels",
   "closest_images", "closest_labels", "test_image_paths", "dataset",
   "dataloader", "pred_label_list", "iter_idx", "batch", "bclosest_images",
   "btest_images", "bclosest_labels", "btest_labels", "warp_predicted",
   "warp_field_forward", "warp_field_reverse", "images_U2A",
   "images_U2A_A2U", "pred_labels", "bpred_label_list", "plot_freq",
   "shall_plot", "save_path_fig_sbs", "i", "fname", "stitched_label_list",
   "stitched_folder", "test_label_folder", "stitched_results", "k", "v",
   "dice_list", "iou_list"]

/-- All names bound at module scope of `main_DiffeoMappingNet.py`: imports,
function definitions, module-level assignments, and the names assigned
inside the `__main__` guard (which are module globals when the script
runs). -/
def moduleGlobalNames : List String :=
  ["Tuple", "List", "Literal", "argparse", "np", "torch", "cv2", "ast", "os",
   "tqdm", "plt", "partial", "AutoEncoder", "UNet", "Warper",
   "AttributeHashmap", "prepare_dataset", "log", "parse_settings",
   "seed_everything", "EarlyStopping", "dice_coeff", "IoU", "NCC", "re",
   "glob", "metrics", "shutil", "load_dotenv", "WANDB_ENTITY",
   "PROJECT_PATH", "numpy_variables", "l1", "plot_side_by_side", "flip_rot",
   "predict_flipping_rotation", "apply_flipping_rotation", "train", "test",
   "extract_h_w", "stitch_patches", "eval_stitched", "infer", "parser",
   "config", "ROOT", "key", "model_name", "log_str"]

/-- The Python builtins referenced anywhere in the source file. -/
def referencedBuiltinNames : List String :=
  ["print", "len", "range", "str", "int", "float", "type", "sum", "any",
   "enumerate", "zip", "globals", "vars", "getattr", "setattr", "min", "max",
   "__name__", "__file__"]

/-- Resolve a bare name at source line 814 of `infer`: local scope, then
module globals, then builtins; an unbound name raises `NameError`. -/
def resolveInferName (n : String) : Except PyErr Unit :=
  if n ∈ inferLocalNames ∨ n ∈ moduleGlobalNames ∨ n ∈ referencedBuiltinNames
  then Except.ok () else Except.error (PyErr.nameError n)

/-- The tail of `infer` after the prediction loop (source lines 805-817). -/
inductive InferStep where
  | writePredLabelFiles
  | stitchAndWriteCanvases
  | callEvalStitched
  | logStitchedMetrics
  deriving DecidableEq, BEq

/-- Statement order of `infer`'s post-loop tail: the per-patch predicted
label files are written (lines 806-809), `stitch_patches` writes the
stitched canvases (line 812, canvases saved at line 653), then
`eval_stitched` is called (line 814), then the aggregate stitched metrics
are logged (lines 816-817). -/
def inferTailSteps : List InferStep :=
  [.writePredLabelFiles, .stitchAndWriteCanvases, .callEvalStitched,
   .logStitchedMetrics]

/-- The effect of one tail statement: evaluating the `eval_stitched` call
resolves its argument expression `dataset_name`; the other statements raise
nothing once control reaches them. -/
def inferStepEffect : InferStep → Except PyErr Unit
  | .callEvalStitched => resolveInferName "dataset_name"
  | _ => Except.ok ()

/-- Run the tail statements in order, stopping at the first raised error;
returns the statements that completed and the error, if any. -/
def runInferTail : List InferStep → List InferStep × Option PyErr
  | [] => ([], none)
  | s :: rest =>
    match inferStepEffect s with
    | Except.ok _ =>
      let r := runInferTail rest
      (s :: r.1, r.2)
    | Except.error e => ([], some e)

/-- C6.  `dataset_name` is bound in no scope enclosing source line 814, so
every execution of `infer` that reaches the post-stitching evaluation step
raises `NameError` there: the per-patch predicted label files and the
stitched canvases have already been written by then, and the aggregate
stitched-metric logging is never reached. -/
theorem c6_infer_name_error :
    resolveInferName "dataset_name" =
      Except.error (PyErr.nameError "dataset_name") ∧
    runInferTail inferTailSteps =
      ([.writePredLabelFiles, .stitchAndWriteCanvases],
       some (PyErr.nameError "dataset_name")) ∧
    InferStep.logStitchedMetrics ∉ (runInferTail inferTailSteps).1 := by
  have h2 : runInferTail inferTailSteps =
      ([.writePredLabelFiles, .stitchAndWriteCanvases],
       some (PyErr.nameError "dataset_name")) := rfl
  refine ⟨rfl, h2, ?_⟩
  rw [h2]
  simp

/-! ## The binary-label precondition of `train` (claim C8,
source lines 228-242)

The labels of one batch, already cast to float (`ℚ`), are modelled as a
nonempty list `head :: rest`; `label_is_binary` is derived from the original
dtype, and the binary branch asserts `annotated_labels.max() in [0, 1]`
before thresholding both label tensors at 0.5. -/

def label_is_binary (isFloatingPoint : Bool) : Bool := !isFloatingPoint

/-- Embedding of `tensor.max()` on a nonempty batch. -/
def batchMax (head : ℚ) (rest : List ℚ) : ℚ := rest.foldl max head

/-- Threshold `(x > 0.5).float()` on one value. -/
def threshold05 (x : ℚ) : ℚ := if 1 / 2 < x then 1 else 0

/-- The label normalization of one `train` batch (source lines 228-242):
when the labels are not floating point they are treated as binary, the
maximum of the annotated labels is asserted to be 0 or 1, and both label
tensors are thresholded; otherwise both pass through unchanged.  The
unannotated labels are never asserted. -/
def processTrainLabels (isFloatingPoint : Bool)
    (annHead : ℚ) (annRest : List ℚ) (unannHead : ℚ) (unannRest : List ℚ) :
    Except PyErr (List ℚ × List ℚ) :=
  if label_is_binary isFloatingPoint then
    if batchMax annHead annRest = 0 ∨ batchMax annHead annRest = 1 then
      Except.ok ((annHead :: annRest).map threshold05,
                 (unannHead :: unannRest).map threshold05)
    else Except.error PyErr.assertionError
  else Except.ok (annHead :: annRest, unannHead :: unannRest)

lemma self_le_batchMax : ∀ (rest : List ℚ) (head : ℚ),
    head ≤ batchMax head rest := by
  intro rest
  induction rest with
  | nil => intro head; exact le_refl head
  | cons b l ih =>
    intro head
    calc head ≤ max head b := le_max_left head b
    _ ≤ batchMax (max head b) l := ih (max head b)

lemma mem_le_batchMax : ∀ (rest : List ℚ) (head x : ℚ),
    x ∈ head :: rest → x ≤ batchMax head rest := by
  intro rest
  induction rest with
  | nil =>
    intro head x hx
    rcases List.mem_singleton.mp hx with h
    exact h ▸ le_refl x
  | cons b l ih =>
    intro head x hx
    have step : batchMax head (b :: l) = batchMax (max head b) l := rfl
    rw [step]
    rcases List.mem_cons.mp hx with rfl | h
    · exact le_trans (le_max_left x b) (self_le_batchMax l _)
    · rcases List.mem_cons.mp h with rfl | h2
      · exact le_trans (le_max_right head x) (self_le_batchMax l _)
      · exact ih (max head b) x (List.mem_cons_of_mem _ h2)

/-- C8 counterexample.  An integer-typed annotated batch holding the values
`[-1, 1]` contains a value outside {0, 1}, yet its maximum is 1, so the
assertion passes and the batch is silently coerced by the 0.5 threshold to
`[0, 1]` — `train` does not abort, contradicting the claim. -/
theorem c8_out_of_range_not_caught :
    (¬((-1 : ℚ) = 0 ∨ (-1 : ℚ) = 1)) ∧
    ((-1 : ℚ) ∈ ((-1 : ℚ) :: [1])) ∧
    processTrainLabels false (-1) [1] 0 [] =
      Except.ok ([0, 1], [0]) := by
  refine ⟨by norm_num, by simp, ?_⟩
  have hmax : batchMax (-1) [1] = 1 := by
    show max (-1 : ℚ) 1 = 1
    norm_num
  unfold processTrainLabels label_is_binary
  rw [if_pos (show (!false) = true from rfl), if_pos (Or.inr hmax)]
  norm_num [threshold05]

/-- C8 amended.  For an integer-typed (hence binary-classified) batch,
`train` aborts with the assertion exactly when the *maximum* annotated label
value is outside {0, 1}; in particular any annotated value strictly greater
than 1 aborts the batch before thresholding and loss computation, but a
batch whose values lie below its in-range maximum (e.g. negative values) is
not caught and is silently coerced. -/
theorem c8_assertion_amended (annHead : ℚ) (annRest : List ℚ)
    (unannHead : ℚ) (unannRest : List ℚ) :
    (processTrainLabels false annHead annRest unannHead unannRest =
        Except.error PyErr.assertionError ↔
      ¬(batchMax annHead annRest = 0 ∨ batchMax annHead annRest = 1)) ∧
    ((∃ v ∈ annHead :: annRest, (1 : ℚ) < v) →
      processTrainLabels false annHead annRest unannHead unannRest =
        Except.error PyErr.assertionError) := by
  constructor
  · unfold processTrainLabels label_is_binary
    by_cases hmax : batchMax annHead annRest = 0 ∨ batchMax annHead annRest = 1
    · simp [hmax]
    · simp [hmax]
  · rintro ⟨v, hv, hv1⟩
    have hle : v ≤ batchMax annHead annRest := mem_le_batchMax _ _ _ hv
    have hgt : (1 : ℚ) < batchMax annHead annRest := lt_of_lt_of_le hv1 hle
    unfold processTrainLabels label_is_binary
    have hmax : ¬(batchMax annHead annRest = 0 ∨ batchMax annHead annRest = 1) := by
      rintro (h | h) <;> rw [h] at hgt <;> norm_num at hgt
    simp [hmax]

/-- Witness for C8 amended: the annotated batch `[2, 0]` holds a value
greater than 1, and the theorem applied to it yields the assertion abort. -/
theorem c8_assertion_amended_witness :
    processTrainLabels false 2 [0] 0 [] =
      Except.error PyErr.assertionError :=
  (c8_assertion_amended 2 [0] 0 []).2
    ⟨2, List.mem_cons_self 2 [0], by norm_num⟩

/-! ## Checkpointing and early stopping across the epoch loop of `train`
(claim C9, source lines 196-197 and 457-468)

`best_val_loss` starts at `np.inf` (modelled as `⊤ : WithTop ℚ`).  At the
end of each epoch the model is saved when `val_loss < best_val_loss`, which
also updates the running best; then the early stopper — external code from
`utils.early_stop`, taken as an opaque stateful step function — is fed the
validation loss and the loop breaks when it signals stop.  The loop is run
over the list of per-epoch validation losses; its output is the list of
save flags of the executed epochs. -/

def runEpochLoop {σ : Type} (stopStep : σ → ℚ → σ × Bool) :
    σ → WithTop ℚ → List ℚ → List Bool
  | _, _, [] => []
  | s, best, l :: rest =>
    let saved := decide ((l : WithTop ℚ) < best)
    let best2 := if (l : WithTop ℚ) < best then (l : WithTop ℚ) else best
    let p := stopStep s l
    if p.2 then [saved] else saved :: runEpochLoop stopStep p.1 best2 rest

/-- The epoch loop of `train`, with `best_val_loss = np.inf` at entry
(source line 196). -/
def epochSaveFlags {σ : Type} (stopStep : σ → ℚ → σ × Bool) (s0 : σ)
    (valLosses : List ℚ) : List Bool :=
  runEpochLoop stopStep s0 ⊤ valLosses

/-- The stop signals the early stopper would emit on the loss sequence if
the loop never broke (the stopper state is threaded exactly as in the
loop). -/
def stopSignals {σ : Type} (stopStep : σ → ℚ → σ × Bool) :
    σ → List ℚ → List Bool
  | _, [] => []
  | s, l :: rest => (stopStep s l).2 :: stopSignals stopStep (stopStep s l).1 rest

lemma runEpochLoop_length {σ : Type} (stopStep : σ → ℚ → σ × Bool) :
    ∀ (valLosses : List ℚ) (s : σ) (best : WithTop ℚ),
      (runEpochLoop stopStep s best valLosses).length =
        min (((stopSignals stopStep s valLosses).takeWhile
          (fun b => !b)).length + 1) valLosses.length := by
  intro valLosses
  induction valLosses with
  | nil => intro s best; simp [runEpochLoop, stopSignals]
  | cons l rest ih =>
    intro s best
    have hsig : stopSignals stopStep s (l :: rest) =
        (stopStep s l).2 :: stopSignals stopStep (stopStep s l).1 rest := rfl
    rw [hsig]
    simp only [runEpochLoop]
    cases hb : (stopStep s l).2 with
    | true =>
      simp [List.takeWhile_cons, min_def]
    | false =>
      simp [List.takeWhile_cons, ih, min_def]
      split_ifs <;> omega

lemma runEpochLoop_flag {σ : Type} (stopStep : σ → ℚ → σ × Bool) :
    ∀ (valLosses : List ℚ) (s : σ) (best : WithTop ℚ) (i : ℕ),
      i < (runEpochLoop stopStep s best valLosses).length →
      ((runEpochLoop stopStep s best valLosses).getD i false = true ↔
        ((valLosses.getD i 0 : WithTop ℚ) < best ∧
         ∀ j : ℕ, j < i → valLosses.getD i 0 < valLosses.getD j 0)) := by
  intro valLosses
  induction valLosses with
  | nil =>
    intro s best i hi
    simp [runEpochLoop] at hi
  | cons l rest ih =>
    intro s best i hi
    have hbest2 : (if (l : WithTop ℚ) < best then (l : WithTop ℚ) else best)
        = min best (l : WithTop ℚ) := by
      rcases lt_or_ge (l : WithTop ℚ) best with h | h
      · rw [if_pos h, min_eq_right (le_of_lt h)]
      · rw [if_neg (not_lt.mpr h), min_eq_left h]
    simp only [runEpochLoop] at hi ⊢
    cases hb : (stopStep s l).2 with
    | true =>
      rw [hb] at hi
      simp only [if_pos rfl] at hi ⊢
      have hi0 : i = 0 := Nat.lt_one_iff.mp (by simpa using hi)
      subst hi0
      simp only [List.getD_cons_zero]
      constructor
      · intro h
        exact ⟨of_decide_eq_true h, fun j hj => absurd hj (Nat.not_lt_zero j)⟩
      · intro ⟨h, _⟩
        exact decide_eq_true h
    | false =>
      rw [hb] at hi
      simp only [Bool.false_eq_true, if_false] at hi ⊢
      cases i with
      | zero =>
        simp only [List.getD_cons_zero]
        constructor
        · intro h
          exact ⟨of_decide_eq_true h, fun j hj => absurd hj (Nat.not_lt_zero j)⟩
        · intro ⟨h, _⟩
          exact decide_eq_true h
      | succ i2 =>
        simp only [List.length_cons, Nat.succ_lt_succ_iff] at hi
        simp only [List.getD_cons_succ]
        rw [hbest2] at hi ⊢
        rw [ih (stopStep s l).1 (min best (l : WithTop ℚ)) i2 hi]
        constructor
        · intro ⟨hlt, hall⟩
          rw [lt_min_iff] at hlt
          refine ⟨hlt.1, fun j hj => ?_⟩
          cases j with
          | zero =>
            simp only [List.getD_cons_zero]
            exact_mod_cast hlt.2
          | succ j2 =>
            simp only [List.getD_cons_succ]
            exact hall j2 (Nat.succ_lt_succ_iff.mp hj)
        · intro ⟨hlt, hall⟩
          refine ⟨lt_min_iff.mpr ⟨hlt, ?_⟩, fun j hj => ?_⟩
          · have h0 := hall 0 (Nat.succ_pos i2)
            simp only [List.getD_cons_zero] at h0
            exact_mod_cast h0
          · have hs := hall (j + 1) (Nat.succ_lt_succ hj)
            simpa using hs

/-- C9.  Over the epoch loop of `train`, with the early stopper abstract:
the number of executed epochs is one more than the number of leading
non-stop signals (capped at the number of epochs), i.e. the loop breaks
right after the first epoch whose stop signal fires; and an executed epoch
saves the model weights exactly when its validation loss is strictly lower
than every preceding executed epoch's validation loss (the running best
starts at infinity, so the first epoch always saves); no other epoch writes
the checkpoint. -/
theorem c9_checkpoint_policy {σ : Type} (stopStep : σ → ℚ → σ × Bool)
    (s0 : σ) (valLosses : List ℚ) :
    (epochSaveFlags stopStep s0 valLosses).length =
      min (((stopSignals stopStep s0 valLosses).takeWhile
        (fun b => !b)).length + 1) valLosses.length ∧
    ∀ i : ℕ, i < (epochSaveFlags stopStep s0 valLosses).length →
      ((epochSaveFlags stopStep s0 valLosses).getD i false = true ↔
        ∀ j : ℕ, j < i → valLosses.getD i 0 < valLosses.getD j 0) := by
  constructor
  · exact runEpochLoop_length stopStep valLosses s0 ⊤
  · intro i hi
    unfold epochSaveFlags at hi ⊢
    rw [runEpochLoop_flag stopStep valLosses s0 ⊤ i hi]
    constructor
    · intro ⟨_, h⟩
      exact h
    · intro h
      exact ⟨WithTop.coe_lt_top _, h⟩

/-- A stopper that never signals, used to instantiate the theorem. -/
def neverStop : Unit → ℚ → Unit × Bool := fun _ _ => ((), false)

/-- Witness for C9: on the validation losses `[1, 2, 1/2]` with a stopper
that never signals, all three epochs execute, and epoch 2 saves because its
loss `1/2` beats both predecessors — obtained by applying the theorem at
`i = 2`. -/
theorem c9_checkpoint_policy_witness :
    (epochSaveFlags neverStop () [1, 2, 1/2]).length = 3 ∧
    (epochSaveFlags neverStop () [1, 2, 1/2]).getD 2 false = true := by
  have hlen : (epochSaveFlags neverStop () [1, 2, 1/2]).length = 3 := by
    rw [(c9_checkpoint_policy neverStop () [1, 2, 1/2]).1]
    rfl
  refine ⟨hlen, ?_⟩
  rw [(c9_checkpoint_policy neverStop () [1, 2, 1/2]).2 2 (by rw [hlen]; omega)]
  intro j hj
  interval_cases j <;> norm_num

/-! ## Offset extraction from patch filenames (`extract_h_w`,
source lines 581-588, claim C10)

`re.findall('H(-?\d+)_W(-?\d+)', file_path)` scans the path left to right
for non-overlapping matches of the pattern: a literal `H`, an optional
minus sign, a maximal nonempty digit run, then `_W`, an optional minus
sign and a second maximal nonempty digit run (the digit runs are maximal
because a digit can never start the following `_`).  Each match yields the
two captured signed integers.  `extract_h_w` then asserts that exactly one
match was found and returns it. -/

def digitsToNat (ds : List Char) : ℕ :=
  ds.foldl (fun n c => 10 * n + (c.toNat - '0'.toNat)) 0

/-- Parse `-?\d+` at the head of the string: the optional sign followed by
the maximal nonempty digit run.  Returns the signed value and the rest. -/
def matchSignedInt (s : List Char) : Option (ℤ × List Char) :=
  match s with
  | '-' :: s1 =>
    let ds := s1.takeWhile Char.isDigit
    if ds.isEmpty then none
    else some (-(digitsToNat ds : ℤ), s1.drop ds.length)
  | s1 =>
    let ds := s1.takeWhile Char.isDigit
    if ds.isEmpty then none
    else some ((digitsToNat ds : ℤ), s1.drop ds.length)

/-- Try to match `H(-?\d+)_W(-?\d+)` at the head of the string, returning
the captured pair and the remainder after the match. -/
def matchHW (s : List Char) : Option ((ℤ × ℤ) × List Char) :=
  match s with
  | 'H' :: s1 =>
    match matchSignedInt s1 with
    | none => none
    | some (hVal, s2) =>
      match s2 with
      | '_' :: 'W' :: s3 =>
        match matchSignedInt s3 with
        | none => none
        | some (wVal, s4) => some ((hVal, wVal), s4)
      | _ => none
  | _ => none

/-- Embedding of `re.findall`: scan left to right; at each position either take the
match starting there and resume after it, or advance one character.  The
fuel is the string length; a successful match always consumes at least one
character, so the fuel never runs out. -/
def findAllHWAux : ℕ → List Char → List (ℤ × ℤ)
  | 0, _ => []
  | _ + 1, [] => []
  | fuel + 1, c :: rest =>
    match matchHW (c :: rest) with
    | some (hw, s2) => hw :: findAllHWAux fuel s2
    | none => findAllHWAux fuel rest

def findAllHW (s : List Char) : List (ℤ × ℤ) := findAllHWAux s.length s

/-- Embedding of `extract_h_w(file_path)` (source lines 581-588): find all matches,
assert there is exactly one, and return its signed integer pair. -/
def extract_h_w (filePath : List Char) : Except PyErr (ℤ × ℤ) :=
  match findAllHW filePath with
  | [hw] => Except.ok hw
  | _ => Except.error PyErr.assertionError

/-- C10.  `extract_h_w` returns the pair `(h, w)` precisely when the regex
scan of the path finds exactly the one match capturing `(h, w)`; whenever
the number of matches differs from one it raises the assertion error — no
retry, no recovery, no other outcome. -/
theorem c10_extract_h_w (filePath : List Char) (hOff wOff : ℤ) :
    (extract_h_w filePath = Except.ok (hOff, wOff) ↔
      findAllHW filePath = [(hOff, wOff)]) ∧
    ((findAllHW filePath).length ≠ 1 →
      extract_h_w filePath = Except.error PyErr.assertionError) := by
  constructor
  · unfold extract_h_w
    cases hf : findAllHW filePath with
    | nil => simp
    | cons hw rest =>
      cases rest with
      | nil =>
        simp only [List.cons.injEq, and_true]
        constructor
        · intro h
          cases h
          rfl
        · intro h
          cases h
          rfl
      | cons hw2 rest2 => simp
  · intro hlen
    unfold extract_h_w
    cases hf : findAllHW filePath with
    | nil => rfl
    | cons hw rest =>
      cases rest with
      | nil =>
        rw [hf] at hlen
        simp at hlen
      | cons hw2 rest2 => rfl

/-- Witness for C10: the filename `pred_H-5_W0.png` carries exactly one
match, which the function returns as `(-5, 0)`; the offset-free name
`pred.png` and the doubled name `a_H1_W2_H3_W4` both abort. -/
theorem c10_extract_h_w_witness :
    extract_h_w ("pred_H-5_W0.png".toList) = Except.ok (-5, 0) ∧
    extract_h_w ("pred.png".toList) = Except.error PyErr.assertionError ∧
    extract_h_w ("a_H1_W2_H3_W4".toList) =
      Except.error PyErr.assertionError :=
  ⟨(c10_extract_h_w ("pred_H-5_W0.png".toList) (-5) 0).1.mpr rfl,
   (c10_extract_h_w ("pred.png".toList) 0 0).2 (by decide),
   (c10_extract_h_w ("a_H1_W2_H3_W4".toList) 0 0).2 (by decide)⟩

end DiffeoMappingNet
